import Mathlib

/-! Verification of the k3d bootstrap orchestrator and the environment
validator.

Shallow embedding of `scripts/k3d_bootstrap.sh` and of
`contract-analyzer/libs/common/src/config/env.validation.ts`, together with
theorems settling the specification claims about them.

The bash script is modelled at two levels:

* a *state* model of the background port-forward tunnel: the pid file
  `/tmp/argocd-port-forward.pid` together with the set of live process ids
  (`TunnelState`, `cleanup`, `startTunnel`);
* a *trace* model of `main`: the fixed ordered stage list, each stage a list
  of external commands whose success is given by a `World`, executed under
  `set -e` semantics with the `trap cleanup EXIT` finalizer
  (`bootstrapStages`, `runStages`, `runScript`).
-/

namespace K3dBootstrap

/-! ## Background tunnel state model

`cleanup` (script lines 205–213) and the tunnel start sequence inside
`install_argocd` (lines 147–150) act on the pid file and on process liveness.
A `TunnelState` records the content of `/tmp/argocd-port-forward.pid`
(`none` = file absent) and the list of live process ids. -/

structure TunnelState where
  pidFile : Option Nat
  alive : List Nat
  deriving DecidableEq

/-- Observable actions performed on the operating system by the tunnel
manager: sending `SIGTERM` to a pid (`kill "$PID"`), removing the pid file
(`rm -f /tmp/argocd-port-forward.pid`), spawning the detached port-forward
process (`kubectl port-forward ... &`), and writing its pid to the pid file
(`echo "${ARGOCD_PF_PID}" > /tmp/argocd-port-forward.pid`). -/
inductive TunnelAct where
  | killSig (pid : Nat)
  | removeFile
  | spawnProc (pid : Nat)
  | writeFile (pid : Nat)
  deriving DecidableEq

/-- Model of `cleanup` (lines 205–213): if the pid file exists, read the pid; if that
process is alive (`kill -0 "$PID"` succeeds) then `kill "$PID"` and
`rm -f` the pid file; otherwise do nothing.  Note that both the `kill` and
the `rm -f` sit inside the `kill -0` branch of the source, so a dead
recorded process leaves the pid file in place. -/
def cleanup (s : TunnelState) : TunnelState × List TunnelAct :=
  match s.pidFile with
  | none => (s, [])
  | some p =>
      if p ∈ s.alive then
        ({ pidFile := none, alive := s.alive.erase p },
         [TunnelAct.killSig p, TunnelAct.removeFile])
      else (s, [])

/-- The tunnel start sequence inside `install_argocd` (lines 147–150):
spawn the detached port-forward process (a fresh pid becomes alive) and
overwrite the pid file with the new pid.  The source performs no reaping of
a previously recorded process. -/
def startTunnel (s : TunnelState) (newPid : Nat) : TunnelState × List TunnelAct :=
  ({ pidFile := some newPid, alive := newPid :: s.alive },
   [TunnelAct.spawnProc newPid, TunnelAct.writeFile newPid])

/-- C10: the tunnel cleanup is idempotent on observable state: for every
initial state of the pid file and of process liveness, a second `cleanup`
right after a first one leaves the state of the first unchanged and performs
no kill and no file removal. -/
theorem cleanup_idempotent (s : TunnelState) :
    (cleanup (cleanup s).1).1 = (cleanup s).1 ∧ (cleanup (cleanup s).1).2 = [] := by
  rcases s with ⟨pf, al⟩
  cases pf with
  | none => simp [cleanup]
  | some p =>
      by_cases h : p ∈ al
      · simp [cleanup, h]
      · simp [cleanup, h]

/-- C4 (counterexample): with the pid file recording pid 5 and process 5
already dead, `cleanup` does **not** remove the persisted record (the pid
file survives), contradicting the claim that `Stop` removes the persisted
record whenever it runs. -/
theorem cleanup_dead_process_keeps_pidfile_cex :
    (cleanup { pidFile := some 5, alive := [] }).1.pidFile = some 5 ∧
    (cleanup { pidFile := some 5, alive := [] }).2 = [] := by decide

/-- C4 (amended): `Stop` reads the persisted pid and sends a termination
signal only if that process is alive; it removes the persisted record
exactly when it killed the process; a missing pid file or an already-dead
recorded process makes `Stop` a no-op — no signal, no removal — and never
an error (the function is total and has no error outcome). -/
theorem cleanup_stop_behavior (s : TunnelState) :
    (∀ p, TunnelAct.killSig p ∈ (cleanup s).2 → s.pidFile = some p ∧ p ∈ s.alive) ∧
    (TunnelAct.removeFile ∈ (cleanup s).2 ↔ ∃ p, s.pidFile = some p ∧ p ∈ s.alive) ∧
    (s.pidFile = none ∨ (∃ p, s.pidFile = some p ∧ p ∉ s.alive) →
      cleanup s = (s, [])) := by
  rcases s with ⟨pf, al⟩
  cases pf with
  | none => simp [cleanup]
  | some p =>
      by_cases h : p ∈ al
      · refine ⟨?_, ?_, ?_⟩
        · intro q hq
          simp [cleanup, h] at hq
          simp [hq, h]
        · simp [cleanup, h]
        · rintro (hc | ⟨q, hq, hdead⟩)
          · simp at hc
          · simp at hq
            subst hq
            exact absurd h hdead
      · refine ⟨?_, ?_, ?_⟩
        · intro q hq
          simp [cleanup, h] at hq
        · simp [cleanup, h]
        · intro _
          simp [cleanup, h]

/-- C4 (witness for `cleanup_stop_behavior`): at the concrete state with a
recorded but dead pid, the no-op branch applies. -/
theorem cleanup_stop_behavior_witness :
    cleanup { pidFile := some 7, alive := [] } = ({ pidFile := some 7, alive := [] }, []) :=
  (cleanup_stop_behavior { pidFile := some 7, alive := [] }).2.2
    (Or.inr ⟨7, rfl, by decide⟩)

/-- C8 (counterexample): starting a new tunnel while the pid file records a
still-alive pid 5 does not reap it: the new state has two live tunnel
processes and the performed actions contain no kill, contradicting the
claim that a stale handle is first reaped. -/
theorem startTunnel_leaves_stale_alive_cex :
    (startTunnel { pidFile := some 5, alive := [5] } 7).1.alive = [7, 5] ∧
    (startTunnel { pidFile := some 5, alive := [5] } 7).2 =
      [TunnelAct.spawnProc 7, TunnelAct.writeFile 7] := by decide

/-- C8 (amended): `Start` overwrites the persisted record with the new pid
without reaping: a previously recorded process that is still alive remains
alive (and is no longer recorded), and the actions performed are exactly a
spawn and a pid-file write — no kill.  Only the persisted record, not
process liveness, is unique per environment. -/
theorem startTunnel_overwrites_without_reap (s : TunnelState) (newPid q : Nat)
    (hq : q ∈ s.alive) :
    (startTunnel s newPid).1.pidFile = some newPid ∧
    q ∈ (startTunnel s newPid).1.alive ∧
    (startTunnel s newPid).2 = [TunnelAct.spawnProc newPid, TunnelAct.writeFile newPid] := by
  refine ⟨rfl, ?_, rfl⟩
  simp [startTunnel]
  exact Or.inr hq

/-- C8 (witness for `startTunnel_overwrites_without_reap`): concrete stale
pid 5 alive, new pid 7. -/
theorem startTunnel_overwrites_without_reap_witness :
    (startTunnel { pidFile := some 5, alive := [5] } 7).1.pidFile = some 7 ∧
    5 ∈ (startTunnel { pidFile := some 5, alive := [5] } 7).1.alive ∧
    (startTunnel { pidFile := some 5, alive := [5] } 7).2 =
      [TunnelAct.spawnProc 7, TunnelAct.writeFile 7] :=
  startTunnel_overwrites_without_reap { pidFile := some 5, alive := [5] } 7 5 (by decide)

/-! ## Cluster provisioner state model

`create_cluster` (script lines 61–83) acts on the set of k3d clusters:
`k3d cluster list | grep -q "${CLUSTER_NAME}"` detects an existing cluster
(a substring match over the listing), `k3d cluster delete` removes the
named cluster, `k3d cluster create ... --wait` creates a fresh one. -/

/-- The constant `CLUSTER_NAME="ca-dev"` (script line 9). -/
def clusterName : String := "ca-dev"

/-- One k3d cluster: its name and the time at which it was created. -/
structure Cluster where
  name : String
  createdAt : Nat
  deriving DecidableEq

/-- The set of existing k3d clusters, as `k3d cluster list` would report. -/
structure ClusterState where
  clusters : List Cluster
  deriving DecidableEq

/-- Whether the first character list is a prefix of the second. -/
def charsStartWith : List Char → List Char → Bool
  | [], _ => true
  | _ :: _, [] => false
  | p :: ps, c :: cs => (p = c) && charsStartWith ps cs

/-- Whether the first character list occurs inside the second. -/
def charsContain (pat : List Char) : List Char → Bool
  | [] => pat.isEmpty
  | c :: cs => charsStartWith pat (c :: cs) || charsContain pat cs

/-- Semantics of `grep -q pat` over a listing line: `pat` occurs as a
substring. -/
def strContains (s pat : String) : Bool :=
  charsContain pat.toList s.toList

/-- The check `k3d cluster list | grep -q "${CLUSTER_NAME}"` (line 65): some listed
cluster name contains the target name as a substring. -/
def grepClusterList (s : ClusterState) (nm : String) : Bool :=
  s.clusters.any fun c => strContains c.name nm

/-- Model of `k3d cluster delete nm` (line 67): fails (aborting the run under
`set -e`) when no cluster of that exact name exists, otherwise removes it. -/
def k3dClusterDelete (s : ClusterState) (nm : String) : Option ClusterState :=
  if s.clusters.any (fun c => c.name = nm) then
    some ⟨s.clusters.filter fun c => ¬(c.name = nm)⟩
  else none

/-- Model of `k3d cluster create nm --wait` (lines 71–77): fails when a cluster of
that exact name already exists, otherwise adds a fresh cluster created at
the current time. -/
def k3dClusterCreate (s : ClusterState) (nm : String) (now : Nat) : Option ClusterState :=
  if s.clusters.any (fun c => c.name = nm) then none
  else some ⟨s.clusters ++ [⟨nm, now⟩]⟩

/-- Model of `create_cluster` (lines 61–83): if the listing greps the target name,
delete the cluster first; then create it afresh.  (`kubectl config
use-context` does not affect the cluster set.) -/
def create_cluster (s : ClusterState) (now : Nat) : Option ClusterState :=
  let afterDelete :=
    if grepClusterList s clusterName then k3dClusterDelete s clusterName
    else some s
  match afterDelete with
  | none => none
  | some s1 => k3dClusterCreate s1 clusterName now

/-- C2: if a cluster with the target identifier already exists (and all
existing clusters predate the run), `create_cluster` succeeds, and
afterwards exactly one cluster with that identifier exists and it is newly
created — its creation time is later than that of every pre-run cluster. -/
theorem create_cluster_deletes_then_recreates (s : ClusterState) (now : Nat)
    (hex : ∃ c ∈ s.clusters, c.name = clusterName)
    (hfresh : ∀ c ∈ s.clusters, c.createdAt < now) :
    ∃ s2, create_cluster s now = some s2 ∧
      (s2.clusters.filter fun c => c.name = clusterName).length = 1 ∧
      ∀ c ∈ s2.clusters, c.name = clusterName →
        ∀ c0 ∈ s.clusters, c0.createdAt < c.createdAt := by
  obtain ⟨c, hc, hcname⟩ := hex
  have hgrep : grepClusterList s clusterName = true := by
    refine List.any_eq_true.mpr ⟨c, hc, ?_⟩
    rw [hcname]
    decide
  have hanyeq : s.clusters.any (fun c => c.name = clusterName) = true :=
    List.any_eq_true.mpr ⟨c, hc, by simp [hcname]⟩
  have hnone :
      ((s.clusters.filter fun c => ¬(c.name = clusterName)).any
        (fun c => c.name = clusterName)) = false := by
    rw [List.any_eq_false]
    intro x hx
    have := List.of_mem_filter hx
    simpa using this
  refine ⟨⟨(s.clusters.filter fun c => ¬(c.name = clusterName)) ++ [⟨clusterName, now⟩]⟩,
    ?_, ?_, ?_⟩
  · simp only [create_cluster, hgrep, if_pos, k3dClusterDelete, hanyeq,
      k3dClusterCreate, hnone]
    simp
  · rw [List.filter_append]
    have hleft :
        (s.clusters.filter fun c => ¬(c.name = clusterName)).filter
          (fun c => c.name = clusterName) = [] := by
      rw [List.filter_filter]
      refine List.filter_eq_nil_iff.mpr ?_
      intro x _
      simp
    rw [hleft]
    simp
  · intro c2 hc2 hname c0 hc0
    rcases List.mem_append.mp hc2 with hmem | hmem
    · have hx := List.of_mem_filter hmem
      simp at hx
      exact absurd hname hx
    · have : c2 = ⟨clusterName, now⟩ := by simpa using hmem
      rw [this]
      exact hfresh c0 hc0

/-- C2 (witness for `create_cluster_deletes_then_recreates`): a state where
`ca-dev` exists (created at time 3) alongside another cluster, run at time
10. -/
theorem create_cluster_deletes_then_recreates_witness :
    ∃ s2, create_cluster ⟨[⟨"ca-dev", 3⟩, ⟨"other", 4⟩]⟩ 10 = some s2 ∧
      (s2.clusters.filter fun c => c.name = clusterName).length = 1 ∧
      ∀ c ∈ s2.clusters, c.name = clusterName →
        ∀ c0 ∈ [Cluster.mk "ca-dev" 3, Cluster.mk "other" 4], c0.createdAt < c.createdAt :=
  create_cluster_deletes_then_recreates ⟨[⟨"ca-dev", 3⟩, ⟨"other", 4⟩]⟩ 10
    ⟨⟨"ca-dev", 3⟩, by decide, by decide⟩ (by decide)

/-! ## Trace model of `main` (script lines 219–234)

The script is a fixed ordered list of stages (`check_prerequisites`,
`create_cluster`, `install_ingress_nginx`, `install_keda`,
`install_argocd`, `deploy_application`, `display_info`), each a list of
external commands.  Under `set -e` (line 6) the first failing command
aborts the run; `trap cleanup EXIT` (line 216) runs `cleanup` exactly once
when the shell exits — on normal completion, on a `set -e` abort, and on
termination by a trappable signal. -/

/-- One external command of a stage body.

* `checkTool t` — `command -v t` (lines 42–55);
* `run c` — a plain blocking command that may fail;
* `install comp (some b)` — an install invocation that itself blocks until
  the component is ready, with the bound `b` carried by that invocation
  (`helm upgrade --install ... --wait`, with the helm default timeout of
  300 s);
* `install comp none` — an install invocation whose tool waits without a
  bound (`k3d cluster create --wait`);
* `toolWait tgt b` — a separate readiness command with a tool-enforced
  bound (`kubectl wait --for=condition=available --timeout=300s`, line 137);
* `extract sec` — `kubectl get secret sec -o jsonpath=... | base64 -d`
  (line 140): the pipeline status is that of `base64`, so it never fails;
* `spawn c` — spawn a detached background process (`... &`, line 147);
* `writePidFile p` — `echo "$!" > p` (line 150). -/
inductive Cmd where
  | checkTool (tool : String)
  | run (cmd : String)
  | install (component : String) (waitBound : Option Nat)
  | toolWait (target : String) (bound : Nat)
  | extract (secretName : String)
  | spawn (cmd : String)
  | writePidFile (path : String)
  deriving DecidableEq

/-- The environment a run executes in: which tools resolve on the path
(`command -v`), which plain commands succeed, and the time at which each
awaited component becomes ready. -/
structure World where
  has : String → Bool
  ok : String → Bool
  readyAt : String → Nat

/-- Success of one command in a world, following the source semantics. -/
def cmdOk (w : World) : Cmd → Bool
  | Cmd.checkTool t => w.has t
  | Cmd.run c => w.ok c
  | Cmd.install comp none => w.ok comp
  | Cmd.install comp (some b) => w.ok comp && decide (w.readyAt comp ≤ b)
  | Cmd.toolWait tgt b => decide (w.readyAt tgt ≤ b)
  | Cmd.extract _ => true
  | Cmd.spawn _ => true
  | Cmd.writePidFile _ => true

/-- A trace event: a command executed within a named stage, or the run of
the `cleanup` EXIT trap. -/
inductive Ev where
  | exec (stage : String) (c : Cmd)
  | cleanupRun
  deriving DecidableEq

/-- Execute a stage body under `set -e`: commands run in order; a failing
command is still executed (and traced) but stops the stage, reporting
failure. -/
def runCmds (w : World) (stage : String) : List Cmd → List Ev × Bool
  | [] => ([], true)
  | c :: cs =>
      if cmdOk w c then
        let r := runCmds w stage cs
        (Ev.exec stage c :: r.1, r.2)
      else ([Ev.exec stage c], false)

/-- Execute the stage list in order, fail-fast: a failing stage aborts the
run, reporting the name of the failing stage; no later stage executes. -/
def runStages (w : World) : List (String × List Cmd) → List Ev × Option String
  | [] => ([], none)
  | (nm, cs) :: rest =>
      let r := runCmds w nm cs
      if r.2 then
        let r2 := runStages w rest
        (r.1 ++ r2.1, r2.2)
      else (r.1, some nm)

/-- The tools checked by `check_prerequisites`, in source order
(lines 42–55). -/
def requiredTools : List String := ["k3d", "kubectl", "helm"]

/-- The contract `Check` over a tool list: the first missing tool, if any
(the sequential `command -v` / `exit 1` chain of the source). -/
def checkTools (ts : List String) (has : String → Bool) : Option String :=
  ts.find? fun t => !(has t)

/-- Model of `check_prerequisites` (lines 39–58) over the fixed tool list. -/
def check_prerequisites (has : String → Bool) : Option String :=
  checkTools requiredTools has

/-- Stage body of `check_prerequisites` (lines 39–58). -/
def checkPrerequisitesCmds : List Cmd := requiredTools.map Cmd.checkTool

/-- Stage body of `create_cluster` (lines 61–83); the conditional
delete-if-existing is collapsed into one fallible command here, its state
semantics being modelled by `create_cluster` above. -/
def createClusterCmds : List Cmd :=
  [Cmd.run "k3d cluster delete ca-dev (if existing)",
   Cmd.install "k3d cluster create ca-dev" none,
   Cmd.run "kubectl config use-context k3d-ca-dev"]

/-- Stage body of `install_ingress_nginx` (lines 86–105): the readiness
bound is the helm `--wait` timeout (300 s default), carried by the
install invocation itself. -/
def installIngressNginxCmds : List Cmd :=
  [Cmd.run "helm repo add ingress-nginx",
   Cmd.run "helm repo update (ingress-nginx)",
   Cmd.install "ingress-nginx" (some 300)]

/-- Stage body of `install_keda` (lines 108–123): likewise helm `--wait`. -/
def installKedaCmds : List Cmd :=
  [Cmd.run "helm repo add kedacore",
   Cmd.run "helm repo update (keda)",
   Cmd.install "keda" (some 300)]

/-- Stage body of `install_argocd` (lines 126–153): namespace creation,
manifest apply, a separate bounded `kubectl wait --timeout=300s` on the
server deployment, the credential extraction pipeline, then the spawn of
the background port-forward and the pid-file write. -/
def installArgocdCmds : List Cmd :=
  [Cmd.run "kubectl create namespace argocd",
   Cmd.run "kubectl apply -n argocd argo-cd install manifests",
   Cmd.toolWait "deployment/argocd-server" 300,
   Cmd.extract "argocd-initial-admin-secret",
   Cmd.spawn "kubectl port-forward svc/argocd-server -n argocd 8080:443",
   Cmd.writePidFile "/tmp/argocd-port-forward.pid"]

/-- Stage body of `deploy_application` (lines 156–177). -/
def deployApplicationCmds : List Cmd :=
  [Cmd.run "kubectl create namespace contract-analyzer",
   Cmd.run "kubectl apply -f deploy/argocd/app.yaml",
   Cmd.run "sleep 30"]

/-- Stage body of `display_info` (lines 180–202). -/
def displayInfoCmds : List Cmd :=
  [Cmd.run "display cluster and access information"]

/-- The ordered stage list of `main` (lines 219–231). -/
def bootstrapStages : List (String × List Cmd) :=
  [("check_prerequisites", checkPrerequisitesCmds),
   ("create_cluster", createClusterCmds),
   ("install_ingress_nginx", installIngressNginxCmds),
   ("install_keda", installKedaCmds),
   ("install_argocd", installArgocdCmds),
   ("deploy_application", deployApplicationCmds),
   ("display_info", displayInfoCmds)]

/-- The events of one stage body, in order. -/
def stageEvents (nm : String) (cs : List Cmd) : List Ev :=
  cs.map (Ev.exec nm)

/-- All events of a stage list, in order. -/
def allEvents : List (String × List Cmd) → List Ev
  | [] => []
  | (nm, cs) :: rest => stageEvents nm cs ++ allEvents rest

/-- The canonical event sequence of a fully successful run. -/
def fullTrace : List Ev := allEvents bootstrapStages

/-- The events a run emits before the EXIT trap fires. -/
def scriptEvents (w : World) : List Ev := (runStages w bootstrapStages).1

/-- How the process ends: running to completion (normal end or `set -e`
abort), or receipt of a trappable termination signal after `k` events.
(`SIGKILL`, which no shell can trap, is outside the model.) -/
inductive ExitPath where
  | completion
  | signal (k : Nat)

/-- The full observable trace of one run of the script: the emitted events
(truncated at a signal) followed by the single firing of the
`trap cleanup EXIT` handler (line 216). -/
def runScript (w : World) (e : ExitPath) : List Ev :=
  match e with
  | ExitPath.completion => scriptEvents w ++ [Ev.cleanupRun]
  | ExitPath.signal k => (scriptEvents w).take k ++ [Ev.cleanupRun]

/-- The spawn event of the background tunnel (line 147). -/
def spawnEv : Ev :=
  Ev.exec "install_argocd"
    (Cmd.spawn "kubectl port-forward svc/argocd-server -n argocd 8080:443")

/-- The bounded readiness wait on the ArgoCD server (line 137). -/
def argocdWaitEv : Ev :=
  Ev.exec "install_argocd" (Cmd.toolWait "deployment/argocd-server" 300)

/-- Submission of the application descriptor (line 164). -/
def deploySubmitEv : Ev :=
  Ev.exec "deploy_application" (Cmd.run "kubectl apply -f deploy/argocd/app.yaml")

/-- A world in which every tool is present, every command succeeds and
every component is ready immediately. -/
def wAll : World :=
  { has := fun _ => true, ok := fun _ => true, readyAt := fun _ => 0 }

/-! ### Structure of run traces

Every run emits a prefix of the canonical full trace, and the EXIT trap
appends exactly one `cleanupRun` event. -/

theorem runCmds_eq_of_success (w : World) (st : String) (cs : List Cmd)
    (h : (runCmds w st cs).2 = true) : (runCmds w st cs).1 = stageEvents st cs := by
  induction cs with
  | nil => simp [runCmds, stageEvents]
  | cons c cs ih =>
      by_cases hc : cmdOk w c = true
      · simp only [runCmds, hc, if_pos] at h ⊢
        simp [stageEvents, ih h]
      · simp [runCmds, hc] at h

theorem runCmds_take (w : World) (st : String) (cs : List Cmd) :
    ∃ k, k ≤ cs.length ∧ (runCmds w st cs).1 = (stageEvents st cs).take k := by
  induction cs with
  | nil => exact ⟨0, Nat.le_refl 0, by simp [runCmds, stageEvents]⟩
  | cons c cs ih =>
      by_cases hc : cmdOk w c = true
      · obtain ⟨k, hk, heq⟩ := ih
        refine ⟨k + 1, by simpa using Nat.succ_le_succ hk, ?_⟩
        simp [runCmds, hc, stageEvents, List.take_succ_cons] at heq ⊢
        simpa [stageEvents] using heq
      · exact ⟨1, by simp, by simp [runCmds, hc, stageEvents]⟩

theorem runStages_take (w : World) (ss : List (String × List Cmd)) :
    ∃ m, (runStages w ss).1 = (allEvents ss).take m := by
  induction ss with
  | nil => exact ⟨0, by simp [runStages, allEvents]⟩
  | cons p rest ih =>
      obtain ⟨nm, cs⟩ := p
      by_cases hs : (runCmds w nm cs).2 = true
      · obtain ⟨m, hm⟩ := ih
        refine ⟨(stageEvents nm cs).length + m, ?_⟩
        simp only [runStages, hs, if_pos, allEvents]
        rw [List.take_append, runCmds_eq_of_success w nm cs hs, hm]
      · obtain ⟨k, hk, heq⟩ := runCmds_take w nm cs
        refine ⟨k, ?_⟩
        simp only [runStages, hs, if_neg, Bool.not_eq_true, allEvents]
        rw [List.take_append_of_le_length (by simpa [stageEvents] using hk)]
        simpa using heq

theorem runScript_shape (w : World) (e : ExitPath) :
    ∃ m, runScript w e = fullTrace.take m ++ [Ev.cleanupRun] := by
  obtain ⟨m, hm⟩ := runStages_take w bootstrapStages
  cases e with
  | completion => exact ⟨m, by rw [runScript, scriptEvents, hm]; rfl⟩
  | signal k =>
      refine ⟨min k m, ?_⟩
      rw [runScript, scriptEvents, hm, List.take_take]
      rfl

/-- C1: on every exit path of a run in which the tunnel spawn happened
(`Start` succeeded), the `cleanup` finalizer runs exactly once, and it is
the last thing that happens before the process exits. -/
theorem cleanup_runs_exactly_once_on_exit (w : World) (e : ExitPath)
    (_hstart : spawnEv ∈ runScript w e) :
    (runScript w e).count Ev.cleanupRun = 1 ∧
    (runScript w e).getLast? = some Ev.cleanupRun := by
  obtain ⟨m, hm⟩ := runScript_shape w e
  constructor
  · rw [hm, List.count_append]
    have hnot : Ev.cleanupRun ∉ fullTrace.take m := fun hmem =>
      (by decide : Ev.cleanupRun ∉ fullTrace) (List.take_subset m fullTrace hmem)
    rw [List.count_eq_zero.mpr hnot]
    rfl
  · rw [hm, List.getLast?_concat]

/-- C1 (witness for `cleanup_runs_exactly_once_on_exit`): the fully
successful run. -/
theorem cleanup_runs_exactly_once_on_exit_witness :
    (runScript wAll ExitPath.completion).count Ev.cleanupRun = 1 ∧
    (runScript wAll ExitPath.completion).getLast? = some Ev.cleanupRun :=
  cleanup_runs_exactly_once_on_exit wAll ExitPath.completion (by decide)

/-- The stage a trace event belongs to (`none` for the EXIT trap). -/
def evStage : Ev → Option String
  | Ev.exec st _ => some st
  | Ev.cleanupRun => none

theorem getElem_append_single {α : Type} (xs : List α) (a v : α) (i : Nat)
    (h : (xs ++ [a])[i]? = some v) (hne : v ≠ a) : xs[i]? = some v := by
  rcases Nat.lt_or_ge i xs.length with hlt | hge
  · rw [List.getElem?_append_left hlt] at h
    exact h
  · exfalso
    rcases Nat.lt_or_ge i (xs.length + 1) with hlt2 | hge2
    · have hieq : i = xs.length := by omega
      subst hieq
      rw [List.getElem?_concat_length] at h
      exact hne (Option.some.inj h).symm
    · rw [List.getElem?_eq_none (by simpa using hge2)] at h
      cases h

theorem getElem_of_take {α : Type} (l : List α) (m i : Nat) (v : α)
    (h : (l.take m)[i]? = some v) : l[i]? = some v ∧ i < m := by
  have hi : i < (l.take m).length := by
    rcases Nat.lt_or_ge i (l.take m).length with hlt | hge
    · exact hlt
    · rw [List.getElem?_eq_none hge] at h
      cases h
  have him : i < m := by
    simp [List.length_take] at hi
    omega
  exact ⟨by rw [← List.getElem?_take_of_lt him]; exact h, him⟩

/-- C3 (counterexample): in the fully successful run the tunnel spawn is
event 16 and the submission of the application descriptor is event 19 — an
execution in which the tunnel is spawned before the application descriptor
has been submitted. -/
theorem tunnel_spawn_precedes_deploy_cex :
    (runScript wAll ExitPath.completion)[16]? = some spawnEv ∧
    (runScript wAll ExitPath.completion)[19]? = some deploySubmitEv := by decide

/-- C3 (amended): the tunnel is spawned during the GitOps-controller stage,
not after the application deploy: in every run, the spawn event is preceded
by the bounded readiness wait on the ArgoCD server, and every
`deploy_application` event comes strictly after the spawn. -/
theorem tunnel_spawned_in_gitops_stage (w : World) (e : ExitPath) (i j : Nat) (c : Cmd)
    (hi : (runScript w e)[i]? = some spawnEv)
    (hj : (runScript w e)[j]? = some (Ev.exec "deploy_application" c)) :
    (∃ k, k < i ∧ (runScript w e)[k]? = some argocdWaitEv) ∧ i < j := by
  obtain ⟨m, hm⟩ := runScript_shape w e
  rw [hm] at hi hj
  have hi1 := getElem_append_single _ _ _ _ hi (by decide)
  have hj1 := getElem_append_single _ _ _ _ hj (fun hEq => Ev.noConfusion hEq)
  obtain ⟨hi2, him⟩ := getElem_of_take _ _ _ _ hi1
  obtain ⟨hj2, hjm⟩ := getElem_of_take _ _ _ _ hj1
  have hibound : i < 22 := by
    rcases Nat.lt_or_ge i fullTrace.length with hlt | hge
    · simpa using hlt
    · rw [List.getElem?_eq_none hge] at hi2
      cases hi2
  have hjbound : j < 22 := by
    rcases Nat.lt_or_ge j fullTrace.length with hlt | hge
    · simpa using hlt
    · rw [List.getElem?_eq_none hge] at hj2
      cases hj2
  have hi16 : i = 16 :=
    (by decide : ∀ i2, i2 < 22 → fullTrace[i2]? = some spawnEv → i2 = 16) i hibound hi2
  have hj18 : 18 ≤ j := by
    have hmap : (fullTrace.map evStage)[j]? = some (some "deploy_application") := by
      rw [List.getElem?_map, hj2]
      rfl
    exact (by decide : ∀ j2, j2 < 22 →
      (fullTrace.map evStage)[j2]? = some (some "deploy_application") → 18 ≤ j2) j hjbound hmap
  refine ⟨⟨14, by omega, ?_⟩, by omega⟩
  rw [hm]
  have h14 : (fullTrace.take m)[14]? = some argocdWaitEv := by
    rw [List.getElem?_take_of_lt (by omega)]
    decide
  rw [List.getElem?_append_left]
  · exact h14
  · have : 14 < (fullTrace.take m).length := by
      rcases Nat.lt_or_ge 14 (fullTrace.take m).length with hlt | hge
      · exact hlt
      · rw [List.getElem?_eq_none hge] at h14
        cases h14
    exact this

/-- C3 (witness for `tunnel_spawned_in_gitops_stage`): the fully successful
run, spawn at index 16 and descriptor submission at index 19. -/
theorem tunnel_spawned_in_gitops_stage_witness :
    (∃ k, k < 16 ∧ (runScript wAll ExitPath.completion)[k]? = some argocdWaitEv) ∧
    (16 : Nat) < 19 :=
  tunnel_spawned_in_gitops_stage wAll ExitPath.completion 16 19
    (Cmd.run "kubectl apply -f deploy/argocd/app.yaml") (by decide) (by decide)

/-! ### Readiness bounds of the component-installer stages -/

/-- Whether a stage body carries a readiness bound inside the install
invocation itself (the helm flag `--wait`). -/
def boundInsideInstallOp (cs : List Cmd) : Bool :=
  cs.any fun c =>
    match c with
    | Cmd.install _ (some _) => true
    | _ => false

/-- The readiness bounds occurring in a stage body, whether carried by the
install invocation or by a separate tool wait. -/
def readinessBounds : List Cmd → List Nat
  | [] => []
  | Cmd.install _ (some b) :: cs => b :: readinessBounds cs
  | Cmd.toolWait _ b :: cs => b :: readinessBounds cs
  | _ :: cs => readinessBounds cs

/-- C5 (counterexample): in the ingress-controller installer stage the only
readiness bound (300) is carried by the install invocation itself
(`helm upgrade --install ... --wait`), and the stage contains no readiness
wait separate from the install operation — so the bound is not enforced by
the stage runner rather than by the invoked install operation. -/
theorem ingress_readiness_bound_inside_install_cex :
    boundInsideInstallOp installIngressNginxCmds = true ∧
    readinessBounds installIngressNginxCmds = [300] ∧
    (installIngressNginxCmds.all fun c =>
      match c with
      | Cmd.toolWait _ _ => false
      | _ => true) = true := by decide

/-- C5 (amended): every component-installer stage bounds its readiness wait
by the fixed value 300, but the bound is enforced by the invoked external
tool (by the `--wait` of the install operation itself for the ingress and
autoscaler stages, by a separate bounded `kubectl wait` for the GitOps
stage), not by a polling loop of the runner; when the bound elapses without
the component reporting ready (here: the ingress controller never becomes
ready), the run aborts at that stage and no subsequent stage executes. -/
theorem installer_readiness_bound_tool_enforced (w : World)
    (hhas : ∀ t, w.has t = true) (hok : ∀ s, w.ok s = true)
    (hnever : 300 < w.readyAt "ingress-nginx") :
    (readinessBounds installIngressNginxCmds = [300] ∧
     readinessBounds installKedaCmds = [300] ∧
     readinessBounds installArgocdCmds = [300]) ∧
    (runStages w bootstrapStages).2 = some "install_ingress_nginx" ∧
    ∀ st c, Ev.exec st c ∈ scriptEvents w →
      st ∈ ["check_prerequisites", "create_cluster", "install_ingress_nginx"] := by
  have hd : decide (w.readyAt "ingress-nginx" ≤ 300) = false := by
    simp only [decide_eq_false_iff_not]
    omega
  refine ⟨by decide, ?_, ?_⟩
  · simp [runStages, runCmds, cmdOk, bootstrapStages, checkPrerequisitesCmds,
      createClusterCmds, installIngressNginxCmds, requiredTools, hhas, hok, hd]
  · intro st c hmem
    simp [scriptEvents, runStages, runCmds, cmdOk, bootstrapStages, checkPrerequisitesCmds,
      createClusterCmds, installIngressNginxCmds, requiredTools, hhas, hok, hd] at hmem
    rcases hmem with h | h | h | h | h | h | h | h | h <;> simp [h.1]

/-- C5 (witness for `installer_readiness_bound_tool_enforced`): a world
where every tool is present and every command succeeds, but the ingress
controller only becomes ready at time 301. -/
theorem installer_readiness_bound_tool_enforced_witness :
    (readinessBounds installIngressNginxCmds = [300] ∧
     readinessBounds installKedaCmds = [300] ∧
     readinessBounds installArgocdCmds = [300]) ∧
    (runStages
      { has := fun _ => true, ok := fun _ => true,
        readyAt := fun s => if s = "ingress-nginx" then 301 else 0 }
      bootstrapStages).2 = some "install_ingress_nginx" ∧
    ∀ st c, Ev.exec st c ∈ scriptEvents
      { has := fun _ => true, ok := fun _ => true,
        readyAt := fun s => if s = "ingress-nginx" then 301 else 0 } →
      st ∈ ["check_prerequisites", "create_cluster", "install_ingress_nginx"] :=
  installer_readiness_bound_tool_enforced
    { has := fun _ => true, ok := fun _ => true,
      readyAt := fun s => if s = "ingress-nginx" then 301 else 0 }
    (fun _ => rfl) (fun _ => rfl) (by decide)

/-! ### Prerequisite checking -/

/-- C7: the prerequisite checker succeeds when every required tool is
present; when some tool is missing, it reports the first missing tool in
check order, the run aborts in the `check_prerequisites` stage, and no
event of any provisioning stage is emitted. -/
theorem check_prerequisites_fail_fast (w : World) :
    ((∀ t ∈ requiredTools, w.has t = true) → check_prerequisites w.has = none) ∧
    ∀ t, check_prerequisites w.has = some t →
      w.has t = false ∧
      (∃ pre post, requiredTools = pre ++ t :: post ∧ ∀ t2 ∈ pre, w.has t2 = true) ∧
      (runStages w bootstrapStages).2 = some "check_prerequisites" ∧
      ∀ st c, Ev.exec st c ∈ scriptEvents w → st = "check_prerequisites" := by
  by_cases h1 : w.has "k3d" = true
  · by_cases h2 : w.has "kubectl" = true
    · by_cases h3 : w.has "helm" = true
      · constructor
        · intro _
          simp [check_prerequisites, checkTools, requiredTools, List.find?, h1, h2, h3]
        · intro t ht
          simp [check_prerequisites, checkTools, requiredTools, List.find?, h1, h2, h3] at ht
      · have h3f : w.has "helm" = false := by simpa using h3
        constructor
        · intro hall
          have := hall "helm" (by simp [requiredTools])
          rw [this] at h3f
          cases h3f
        · intro t ht
          simp [check_prerequisites, checkTools, requiredTools, List.find?, h1, h2, h3f] at ht
          subst ht
          refine ⟨h3f, ⟨["k3d", "kubectl"], [], by simp [requiredTools], ?_⟩, ?_, ?_⟩
          · intro t2 ht2
            rcases (by simpa using ht2 : t2 = "k3d" ∨ t2 = "kubectl") with rfl | rfl
            · exact h1
            · exact h2
          · simp [runStages, runCmds, cmdOk, bootstrapStages, checkPrerequisitesCmds,
              requiredTools, h1, h2, h3f]
          · intro st c hmem
            simp [scriptEvents, runStages, runCmds, cmdOk, bootstrapStages,
              checkPrerequisitesCmds, requiredTools, h1, h2, h3f] at hmem
            rcases hmem with h | h | h <;> exact h.1
    · have h2f : w.has "kubectl" = false := by simpa using h2
      constructor
      · intro hall
        have := hall "kubectl" (by simp [requiredTools])
        rw [this] at h2f
        cases h2f
      · intro t ht
        simp [check_prerequisites, checkTools, requiredTools, List.find?, h1, h2f] at ht
        subst ht
        refine ⟨h2f, ⟨["k3d"], ["helm"], by simp [requiredTools], ?_⟩, ?_, ?_⟩
        · intro t2 ht2
          rcases (by simpa using ht2 : t2 = "k3d") with rfl
          exact h1
        · simp [runStages, runCmds, cmdOk, bootstrapStages, checkPrerequisitesCmds,
            requiredTools, h1, h2f]
        · intro st c hmem
          simp [scriptEvents, runStages, runCmds, cmdOk, bootstrapStages,
            checkPrerequisitesCmds, requiredTools, h1, h2f] at hmem
          rcases hmem with h | h <;> exact h.1
  · have h1f : w.has "k3d" = false := by simpa using h1
    constructor
    · intro hall
      have := hall "k3d" (by simp [requiredTools])
      rw [this] at h1f
      cases h1f
    · intro t ht
      simp [check_prerequisites, checkTools, requiredTools, List.find?, h1f] at ht
      subst ht
      refine ⟨h1f, ⟨[], ["kubectl", "helm"], by simp [requiredTools], by intro t2 ht2; cases ht2⟩,
        ?_, ?_⟩
      · simp [runStages, runCmds, cmdOk, bootstrapStages, checkPrerequisitesCmds,
          requiredTools, h1f]
      · intro st c hmem
        simp [scriptEvents, runStages, runCmds, cmdOk, bootstrapStages,
          checkPrerequisitesCmds, requiredTools, h1f] at hmem
        exact hmem.1

/-- C7 (witness for `check_prerequisites_fail_fast`): a world where `k3d`
is present but `kubectl` is missing — the checker reports `kubectl` and no
provisioning stage runs; and the all-present world, where it succeeds. -/
theorem check_prerequisites_fail_fast_witness :
    check_prerequisites wAll.has = none ∧
    ((World.mk (fun t => if t = "kubectl" then false else true) (fun _ => true)
        (fun _ => 0)).has "kubectl" = false ∧
      (runStages
        (World.mk (fun t => if t = "kubectl" then false else true) (fun _ => true)
          (fun _ => 0)) bootstrapStages).2 = some "check_prerequisites") := by
  constructor
  · exact (check_prerequisites_fail_fast wAll).1 (fun t _ => rfl)
  · have h := (check_prerequisites_fail_fast
      (World.mk (fun t => if t = "kubectl" then false else true) (fun _ => true)
        (fun _ => 0))).2 "kubectl" (by decide)
    exact ⟨h.1, h.2.2.1⟩

/-! ### Credential extraction (script line 140) -/

/-- The result of `kubectl -n argocd get secret argocd-initial-admin-secret`
at the n-th query attempt: `avail n` is the (decoded) credential when the
secret exists by that attempt. -/
def kubectlGetSecret (avail : Nat → Option String) (attempt : Nat) : Except Unit String :=
  match avail attempt with
  | some v => Except.ok v
  | none => Except.error ()

/-- Bash semantics of `kubectl get secret ... | base64 -d` under `set -e`
without `pipefail`: a failing first command contributes empty standard
output, and the exit status of the pipeline is that of `base64 -d`, which
succeeds on empty input — so the assignment never aborts the run. -/
def pipelineOutput (r : Except Unit String) : String :=
  match r with
  | Except.ok s => s
  | Except.error _ => ""

/-- The assignment `ARGOCD_PASSWORD=$(kubectl ... get secret ... | base64 -d)` (line 140):
a single query, issued immediately (attempt 1), with no polling; this value
is what the script displays (lines 143 and 193). -/
def extractAdminPassword (avail : Nat → Option String) : String :=
  pipelineOutput (kubectlGetSecret avail 1)

/-- Availability of the secret only from the third query attempt on. -/
def availThird : Nat → Option String :=
  fun n => if 3 ≤ n then some "s3cretpw" else none

/-- C6: credential extraction does not poll.  With the secret available
only from the third attempt on, the single immediate query misses it and
the extracted — and displayed — credential is the empty string, not the
correct value, while the run continues without error; with the secret
immediately available the same extraction does return it. -/
theorem extract_password_single_query_bug :
    extractAdminPassword availThird = "" ∧
    availThird 3 = some "s3cretpw" ∧
    extractAdminPassword (fun _ => some "s3cretpw") = "s3cretpw" := by decide

end K3dBootstrap

namespace EnvValidation

/-! ## The environment validator
(`contract-analyzer/libs/common/src/config/env.validation.ts`)

`validateEnvironment` converts the supplied environment object with
`plainToClass` (class defaults, then the supplied values; extraneous keys
are carried onto the instance) and runs `validateSync` with
`skipMissingProperties: false, whitelist: true, forbidNonWhitelisted:
true`, throwing when any error results. -/

/-- A value as seen after the class-transformer implicit conversion and any
`@Transform` (e.g. `parseInt`) has been applied. -/
inductive JsValue where
  | str (s : String)
  | num (n : Int)
  | other
  deriving DecidableEq

/-- One decorated property of a configuration schema class: its name, the
conjunction of its class-validator decorators, whether it carries
`@IsOptional`, and the class initializer default, if any. -/
structure PropSpec where
  name : String
  check : JsValue → Bool
  optional : Bool
  dflt : Option JsValue

/-- A configuration schema class (e.g. `BaseEnvironmentConfig`): its
decorated properties. -/
structure EnvSchema where
  props : List PropSpec

/-- The declared (whitelisted) property names of a schema class. -/
def EnvSchema.names (sch : EnvSchema) : List String :=
  sch.props.map PropSpec.name

/-- The `plainToClass` instance value of a declared property: the supplied
value when present, else the class initializer default. -/
def instanceValue (env : List (String × JsValue)) (p : PropSpec) : Option JsValue :=
  match env.lookup p.name with
  | some v => some v
  | none => p.dflt

/-- Validation errors of the decorated properties: a present value must
pass the validators of the property; an absent value is an error unless the
property is `@IsOptional` (`skipMissingProperties: false`). -/
def propErrors (sch : EnvSchema) (env : List (String × JsValue)) : List String :=
  sch.props.filterMap fun p =>
    match instanceValue env p with
    | some v => if p.check v then none else some ("invalid value for " ++ p.name)
    | none => if p.optional then none else some ("missing required " ++ p.name)

/-- Whitelist errors (`whitelist: true, forbidNonWhitelisted: true`): one
error per supplied property that is not declared on the schema class. -/
def whitelistErrors (sch : EnvSchema) (env : List (String × JsValue)) : List String :=
  ((env.map Prod.fst).filter fun k => !(sch.names.contains k)).map
    fun k => "property " ++ k ++ " should not exist"

/-- Model of `validateEnvironment` (env.validation.ts lines 164–192): throw an
`Error` when any validation or whitelist error results, otherwise return
the validated configuration (the declared properties with their instance
values). -/
def validateEnvironment (sch : EnvSchema) (env : List (String × JsValue)) :
    Except String (List (String × JsValue)) :=
  let errs := propErrors sch env ++ whitelistErrors sch env
  if errs.isEmpty then
    Except.ok (sch.props.filterMap fun p => (instanceValue env p).map fun v => (p.name, v))
  else
    Except.error ("Environment validation failed: " ++ String.intercalate "; " errs)

/-- C9: an input containing any property not declared on the schema class
makes `validateEnvironment` throw (regardless of the values of the declared
properties), and a validated configuration is returned only for inputs whose
every property is declared. -/
theorem validateEnvironment_forbids_non_whitelisted (sch : EnvSchema)
    (env : List (String × JsValue)) :
    (∀ k v, (k, v) ∈ env → sch.names.contains k = false →
      ∃ msg, validateEnvironment sch env = Except.error msg) ∧
    (∀ out, validateEnvironment sch env = Except.ok out →
      ∀ k v, (k, v) ∈ env → sch.names.contains k = true) := by
  have hne : ∀ k v, (k, v) ∈ env → sch.names.contains k = false →
      (propErrors sch env ++ whitelistErrors sch env).isEmpty = false := by
    intro k v hm hk
    have h1 : ("property " ++ k ++ " should not exist") ∈ whitelistErrors sch env := by
      refine List.mem_map.mpr ⟨k, ?_, rfl⟩
      exact List.mem_filter.mpr ⟨List.mem_map.mpr ⟨(k, v), hm, rfl⟩, by simpa using hk⟩
    have h2 : ("property " ++ k ++ " should not exist") ∈
        propErrors sch env ++ whitelistErrors sch env :=
      List.mem_append.mpr (Or.inr h1)
    cases hcase : (propErrors sch env ++ whitelistErrors sch env).isEmpty
    · rfl
    · rw [List.isEmpty_iff.mp hcase] at h2
      cases h2
  constructor
  · intro k v hm hk
    refine ⟨"Environment validation failed: " ++
      String.intercalate "; " (propErrors sch env ++ whitelistErrors sch env), ?_⟩
    simp only [validateEnvironment, hne k v hm hk, Bool.false_eq_true, if_false]
  · intro out hout k v hm
    by_contra hk
    have hk2 : sch.names.contains k = false := by simpa using hk
    have := hne k v hm hk2
    simp only [validateEnvironment, this, Bool.false_eq_true, if_false] at hout
    cases hout

/-- The `BaseEnvironmentConfig` schema class (env.validation.ts lines
30–51): `NODE_ENV`, `PORT`, `LOG_LEVEL`, `SERVICE_NAME`,
`SERVICE_VERSION`, all optional, the first three with defaults. -/
def baseEnvironmentConfig : EnvSchema :=
  { props :=
    [ { name := "NODE_ENV",
        check := fun v =>
          match v with
          | JsValue.str s => ["development", "staging", "production", "test"].contains s
          | _ => false,
        optional := true, dflt := some (JsValue.str "development") },
      { name := "PORT",
        check := fun v =>
          match v with
          | JsValue.num _ => true
          | _ => false,
        optional := true, dflt := some (JsValue.num 3000) },
      { name := "LOG_LEVEL",
        check := fun v =>
          match v with
          | JsValue.str s =>
              ["fatal", "error", "warn", "info", "debug", "trace"].contains s
          | _ => false,
        optional := true, dflt := some (JsValue.str "info") },
      { name := "SERVICE_NAME",
        check := fun v =>
          match v with
          | JsValue.str _ => true
          | _ => false,
        optional := true, dflt := none },
      { name := "SERVICE_VERSION",
        check := fun v =>
          match v with
          | JsValue.str _ => true
          | _ => false,
        optional := true, dflt := none } ] }

/-- C9 (witness for `validateEnvironment_forbids_non_whitelisted`): with a
valid `NODE_ENV` and an undeclared property `FOO`, validation throws. -/
theorem validateEnvironment_forbids_non_whitelisted_witness :
    ∃ msg, validateEnvironment baseEnvironmentConfig
      [("NODE_ENV", JsValue.str "production"), ("FOO", JsValue.str "bar")] =
      Except.error msg :=
  (validateEnvironment_forbids_non_whitelisted baseEnvironmentConfig
    [("NODE_ENV", JsValue.str "production"), ("FOO", JsValue.str "bar")]).1
    "FOO" (JsValue.str "bar") (by decide) (by decide)

end EnvValidation
